import Mathlib

/-!
Shallow embedding of the Action Orchestration Engine of the `soar-ai`
repository (src/src/client/event_processor.py: `EventProcessor.execute_actions`,
`EventProcessor.evaluate_condition`,
`EventProcessor.enhance_parameters_with_dependencies`, and the exception
surface of src/src/client/mcp_client.py: `MCPClient.call_server`).

Modelling choices:
* JSON-like Python values are modelled by `JVal` (numbers as rationals,
  strings, objects); Python floats are modelled as exact rationals.
* Python dicts are association lists with first-occurrence lookup and
  in-place replacement on assignment, which coincides with dict semantics
  on duplicate-free key lists.
* Python exceptions are modelled by `Except String`: code that can raise
  returns `Except String α`, and a `try/except` block is a `match` on it.
* The remote call `mcp_client.call_server` is an external collaborator; it
  is passed in as an oracle `call : String → String → Obj → Except String Obj`
  (server name, action name, parameters ↦ JSON result or raised message).
* The orchestration loop additionally records a trace of the observable
  internal calls (`TraceEv`): each condition-evaluator consultation and each
  capability invocation, in order, so that "the invoker is never called for
  this action" is expressible.
* `datetime.now().isoformat()` timestamps are dropped: they are the only
  nondeterministic field and no property below mentions them.
-/

namespace EventProcessor

/-- A JSON-like Python value: number (modelled as an exact rational),
string, or object (dict with string keys). -/
inductive JVal where
  | num (q : ℚ)
  | str (s : String)
  | obj (fields : List (String × JVal))

/-- A Python dict with string keys, as an association list. -/
abbrev Obj := List (String × JVal)

/-- Python `d.get(k)` / `d[k]`: first binding of the key, if any. -/
def Obj.get? : Obj → String → Option JVal
  | [], _ => none
  | (k0, v0) :: rest, k => if k0 = k then some v0 else Obj.get? rest k

/-- Python `d.get(k, dflt)`. -/
def Obj.getD (o : Obj) (k : String) (dflt : JVal) : JVal :=
  (Obj.get? o k).getD dflt

/-- Python `k in d` for a dict. -/
def Obj.hasKey (o : Obj) (k : String) : Bool :=
  (Obj.get? o k).isSome

/-- Python `d[k] = v`: replace the first binding of `k` in place, or append
a new binding (dict insertion order). -/
def Obj.set : Obj → String → JVal → Obj
  | [], k, v => [(k, v)]
  | (k0, v0) :: rest, k, v =>
      if k0 = k then (k0, v) :: rest else (k0, v0) :: Obj.set rest k v

/-- Does the second char list start with the first? (Structurally recursive
so that concrete instances reduce in the kernel.) -/
def leadsWith : List Char → List Char → Bool
  | [], _ => true
  | _ :: _, [] => false
  | p :: ps, c :: cs => p == c && leadsWith ps cs

/-- Substring containment on char lists. -/
def charsContain (pat : List Char) : List Char → Bool
  | [] => leadsWith pat []
  | c :: cs => leadsWith pat (c :: cs) || charsContain pat cs

/-- Python `pat in s` for strings: substring containment. -/
def strContains (s pat : String) : Bool :=
  charsContain pat.data s.data

/-- The chars strictly after the first occurrence of `pat`, if `pat`
occurs. -/
def afterFirst (pat : List Char) : List Char → Option (List Char)
  | [] => if leadsWith pat [] then some [] else none
  | c :: cs =>
      if leadsWith pat (c :: cs) then some ((c :: cs).drop pat.length)
      else afterFirst pat cs

/-- The chars strictly before the first occurrence of `pat` (all of them if
`pat` does not occur). -/
def upToFirst (pat : List Char) : List Char → List Char
  | [] => []
  | c :: cs => if leadsWith pat (c :: cs) then [] else c :: upToFirst pat cs

/-- Python `s.split(op)[1]` for a non-empty separator, defaulting to `""`
when the separator does not occur (the source only indexes `[1]` under an
`op in s` guard): the text between the first and second occurrence. -/
def betweenFirstTwo (s op : String) : String :=
  match afterFirst op.data s.data with
  | none => ""
  | some rest => String.mk (upToFirst op.data rest)

/-- Python `s.strip()`: drop leading and trailing whitespace. -/
def dropLeadingWS : List Char → List Char
  | [] => []
  | c :: cs => if c.isWhitespace then dropLeadingWS cs else c :: cs

/-- Python `s.strip()`. -/
def pyStrip (s : String) : String :=
  String.mk (dropLeadingWS (dropLeadingWS s.data.reverse).reverse)

/-- Python `s.lower()` (ASCII, which covers every string the source
compares). -/
def strToLower (s : String) : String :=
  String.mk (s.data.map Char.toLower)

/-- Split a char list on a single separator char, keeping empty pieces
(Python `s.split(sep)` for a one-char separator). -/
def splitChar (sep : Char) : List Char → List (List Char)
  | [] => [[]]
  | c :: cs =>
      if c = sep then [] :: splitChar sep cs
      else
        match splitChar sep cs with
        | [] => [[c]]
        | h :: t => (c :: h) :: t

mutual

/-- Python `str(v)` (as used in f-string interpolation): a bare string for
`str`, the decimal numeral for numbers (exact for integers), and a
`repr`-style rendering for dicts. -/
def JVal.pyStr : JVal → String
  | .num q => toString q
  | .str s => s
  | .obj fs => "\x7b" ++ fieldsRepr fs ++ "\x7d"

/-- Python `repr(v)`, used for values nested inside a dict rendering. -/
def JVal.pyRepr : JVal → String
  | .num q => toString q
  | .str s => "\x27" ++ s ++ "\x27"
  | .obj fs => "\x7b" ++ fieldsRepr fs ++ "\x7d"

/-- The comma-separated `'key': repr(value)` rendering of a dict body. -/
def fieldsRepr : List (String × JVal) → String
  | [] => ""
  | [(k, v)] => "\x27" ++ k ++ "\x27: " ++ JVal.pyRepr v
  | (k, v) :: rest => "\x27" ++ k ++ "\x27: " ++ JVal.pyRepr v ++ ", " ++ fieldsRepr rest

end

/-- Digits-only string to a natural number (helper for `parsePyFloat`). -/
def digitsToNat? (l : List Char) : Option Nat :=
  if l.isEmpty then none
  else if l.all Char.isDigit then
    some (l.foldl (fun n c => n * 10 + (c.toNat - 48)) 0)
  else none

/-- Unsigned part of Python `float(s)` on plain decimal literals:
`"5"`, `"5."`, `".5"`, `"5.25"`. -/
def parseUnsignedFloat (s : String) : Option ℚ :=
  match splitChar (Char.ofNat 46) s.data with
  | [w] => (digitsToNat? w).map (fun n => (n : ℚ))
  | [w, f] =>
      if w.isEmpty && f.isEmpty then none
      else
        match (if w.isEmpty then some 0 else digitsToNat? w),
              (if f.isEmpty then some 0 else digitsToNat? f) with
        | some wn, some fn => some ((wn : ℚ) + (fn : ℚ) / ((10 : ℚ) ^ f.length))
        | _, _ => none
  | _ => none

/-- Python `float(s)` on (already stripped) plain decimal literals with an
optional sign. Exotic accepted spellings (`inf`, `nan`, exponents,
underscores) are modelled as parse failures; no property below depends on
them. `none` models a raised `ValueError`. -/
def parsePyFloat (s : String) : Option ℚ :=
  match s.data with
  | c :: rest =>
      if c = Char.ofNat 43 then parseUnsignedFloat (String.mk rest)
      else if c = Char.ofNat 45 then (parseUnsignedFloat (String.mk rest)).map Neg.neg
      else parseUnsignedFloat s
  | [] => none

/-- An entry of `analysis["determined_actions"]` as consumed by
`execute_actions`: the keys the orchestrator reads from the action dict.
`rationale` models `action.get("rationale", "")` with the default folded in. -/
structure Action where
  step : Option Int
  server : String
  action : String
  parameters : Obj
  depends_on : Option Int
  condition : Option String
  rationale : String

/-- The per-step result dict built by `execute_actions`. Optional fields
model keys that are present only on some branches (`result`, `error`,
`skipped`, `condition_evaluated`, `dependency_used`); a missing boolean key
is modelled as `false`, matching `d.get(k, False)` truthiness. The
`timestamp` key is dropped (nondeterministic, never inspected). -/
structure StepOutcome where
  step : Int
  action : Action
  success : Bool
  result : Option Obj := none
  error : Option String := none
  ai_reasoning : String := ""
  skipped : Bool := false
  dependency_used : Bool := false
  condition_evaluated : Option String := none

/-- The run ledger `action_results`: a dict from step number to the stored
outcome, association-list modelled like `Obj`. -/
abbrev Ledger := List (Int × StepOutcome)

/-- `action_results.get(step)`. -/
def Ledger.get? : Ledger → Int → Option StepOutcome
  | [], _ => none
  | (k0, v0) :: rest, k => if k0 = k then some v0 else Ledger.get? rest k

/-- `action_results[step] = outcome`. -/
def Ledger.set : Ledger → Int → StepOutcome → Ledger
  | [], k, v => [(k, v)]
  | (k0, v0) :: rest, k, v =>
      if k0 = k then (k0, v) :: rest else (k0, v0) :: Ledger.set rest k v

/-- Python truthiness of `action.get("condition")`: present and non-empty. -/
def condTruthy : Option String → Bool
  | none => false
  | some c => !(c == "")

/-- `result_data.get(key, "").lower()` where the value must be a string
(a non-string value raises `AttributeError` on `.lower()`). -/
def pyLowerField (rd : Obj) (key : String) : Except String String :=
  match Obj.get? rd key with
  | some (JVal.str s) => Except.ok (strToLower s)
  | some _ => Except.error "AttributeError: lower"
  | none => Except.ok ""

/-- The VirusTotal-style fallback of `evaluate_condition` (lines 446-450):
when both `malicious` and `total` are present, `(malicious / total) * 100 if
total > 0 else 0`; otherwise the initial `threat_score = 0`. Non-numeric
operands raise `TypeError`. -/
def maliciousTotalScore (rd : Obj) : Except String JVal :=
  if Obj.hasKey rd "malicious" && Obj.hasKey rd "total" then
    match Obj.get? rd "malicious", Obj.get? rd "total" with
    | some (JVal.num m), some (JVal.num t) =>
        Except.ok (JVal.num (if t > 0 then m / t * 100 else 0))
    | _, _ => Except.error "TypeError: unsupported operand"
  else Except.ok (JVal.num 0)

/-- Extraction of `threat_score` in `evaluate_condition` (lines 441-450):
directly, from a nested `data` object, or from the `malicious`/`total`
fallback; `in` applied to a non-container `data` value raises. -/
def threatScoreValue (rd : Obj) : Except String JVal :=
  match Obj.get? rd "threat_score" with
  | some v => Except.ok v
  | none =>
    match Obj.get? rd "data" with
    | some (JVal.obj d) =>
      match Obj.get? d "threat_score" with
      | some v => Except.ok v
      | none => maliciousTotalScore rd
    | some (JVal.str s) =>
        if strContains s "threat_score" then
          Except.error "TypeError: string indices must be integers"
        else maliciousTotalScore rd
    | some (JVal.num _) => Except.error "TypeError: argument not iterable"
    | none => maliciousTotalScore rd

/-- `float(condition.split(op)[1].strip())`: the text after the first
occurrence of the operator, stripped and parsed; failure models the raised
`ValueError`. -/
def parseThreshold (condition op : String) : Except String ℚ :=
  match parsePyFloat (pyStrip (betweenFirstTwo condition op)) with
  | some q => Except.ok q
  | none => Except.error "ValueError: could not convert string to float"

/-- The `"threat_score" in condition` branch of `evaluate_condition`
(lines 439-461): extract the score, then dispatch on `>`, `<`, `==` (in
that order); with no operator the branch falls through to the trailing
`return True`. A non-numeric score raises on `>`/`<` and compares unequal
on `==`, as in Python. -/
def evalThreatCondition (condition : String) (rd : Obj) : Except String Bool := do
  let tsv ← threatScoreValue rd
  if strContains condition ">" then
    let th ← parseThreshold condition ">"
    match tsv with
    | JVal.num q => Except.ok (decide (q > th))
    | _ => Except.error "TypeError: not supported between instances"
  else if strContains condition "<" then
    let th ← parseThreshold condition "<"
    match tsv with
    | JVal.num q => Except.ok (decide (q < th))
    | _ => Except.error "TypeError: not supported between instances"
  else if strContains condition "==" then
    let th ← parseThreshold condition "=="
    match tsv with
    | JVal.num q => Except.ok (q == th)
    | _ => Except.ok false
  else Except.ok true

/-- The body of `evaluate_condition` after the success check (lines
436-479), over `result_data`: the four recognized condition shapes, else
the fail-open `return True`. -/
def evalConditionBody (condition : String) (rd : Obj) : Except String Bool :=
  if strContains condition "threat_score" then
    evalThreatCondition condition rd
  else if strContains condition "severity" then do
    let severity ← pyLowerField rd "severity"
    if strContains (strToLower condition) "high" then
      Except.ok (severity == "high" || severity == "critical")
    else if strContains (strToLower condition) "critical" then
      Except.ok (severity == "critical")
    else if strContains (strToLower condition) "medium" then
      Except.ok (severity == "medium" || severity == "high" || severity == "critical")
    else Except.ok true
  else if strContains (strToLower condition) "compromised" then do
    let status ← pyLowerField rd "status"
    Except.ok (strContains status "compromised" || strContains status "infected")
  else if strContains (strToLower condition) "malicious" then
    match Obj.get? rd "malicious" with
    | some (JVal.num q) =>
        Except.ok (decide (q > 0) || strContains (strToLower (JVal.pyStr (JVal.obj rd))) "malicious")
    | some _ => Except.error "TypeError: not supported between instances"
    | none => Except.ok (strContains (strToLower (JVal.pyStr (JVal.obj rd))) "malicious")
  else Except.ok true

/-- The body of the `try` in `evaluate_condition` (lines 432-479): an early
`False` when the dependency result is not flagged successful, then the
pattern dispatch over `dependency_result.get("result", {})`. -/
def evalConditionInner (condition : String) (dependency_result : StepOutcome) : Except String Bool :=
  if !dependency_result.success then Except.ok false
  else evalConditionBody condition (dependency_result.result.getD [])

/-- `EventProcessor.evaluate_condition` (lines 430-483): the `try/except`
wrapper maps any raised error to `False`. -/
def evaluate_condition (condition : String) (dependency_result : StepOutcome) : Bool :=
  match evalConditionInner condition dependency_result with
  | Except.ok b => b
  | Except.error _ => false

/-- `enhanced_params["description"] += txt` (lines 498-502): requires the
current value to be a string, else `TypeError`; a missing key would be
`KeyError` (the source guards with `"description" in enhanced_params`). -/
def descAppend (o : Obj) (txt : String) : Except String Obj :=
  match Obj.get? o "description" with
  | some (JVal.str s) => Except.ok (Obj.set o "description" (JVal.str (s ++ txt)))
  | some _ => Except.error "TypeError: can only concatenate str"
  | none => Except.error "KeyError: description"

/-- The threat-score line appended to the description (line 498). -/
def tsLine (rd : Obj) : String :=
  "\n\nThreat Intelligence:\nThreat Score: "
    ++ JVal.pyStr (Obj.getD rd "threat_score" (JVal.num 0))

/-- The VirusTotal detections line appended to the description (line 500). -/
def vtLine (rd : Obj) : String :=
  "\nVirusTotal Detections: "
    ++ JVal.pyStr (Obj.getD rd "malicious" (JVal.num 0))
    ++ "/" ++ JVal.pyStr (Obj.getD rd "total" (JVal.num 0))

/-- The reputation line appended to the description (line 502). -/
def repLine (rd : Obj) : String :=
  "\nReputation: " ++ JVal.pyStr (Obj.getD rd "reputation" (JVal.num 0))

/-- The priority tier derived from a numeric threat score (lines 507-514). -/
def priorityTier (ts : ℚ) : String :=
  if ts > 80 then "1 - Critical"
  else if ts > 60 then "2 - High"
  else if ts > 30 then "3 - Medium"
  else "4 - Low"

/-- The description-enrichment block for ServiceNow record creation
(lines 495-502): under the `"description" in enhanced_params` guard, append
the available threat-intelligence lines in source order. -/
def descChain (parameters rd : Obj) : Except String Obj :=
  if Obj.hasKey parameters "description" then
    match (if Obj.hasKey rd "threat_score"
           then descAppend parameters (tsLine rd) else Except.ok parameters) with
    | Except.error e => Except.error e
    | Except.ok a1 =>
      match (if Obj.hasKey rd "malicious" && Obj.hasKey rd "total"
             then descAppend a1 (vtLine rd) else Except.ok a1) with
      | Except.error e => Except.error e
      | Except.ok a2 =>
          if Obj.hasKey rd "reputation" then descAppend a2 (repLine rd)
          else Except.ok a2
  else Except.ok parameters

/-- `EventProcessor.enhance_parameters_with_dependencies` (lines 485-524).
Raised Python errors (string concatenation onto a non-string description,
ordering a non-numeric threat score) surface as `Except.error`; they
propagate to the `try` of the orchestration loop, as in the source. -/
def enhance_parameters_with_dependencies (parameters : Obj)
    (dependency_result : Option StepOutcome) (action : Action) : Except String Obj :=
  match dependency_result with
  | none => Except.ok parameters
  | some d =>
    if !d.success then Except.ok parameters
    else
      let rd := d.result.getD []
      if action.server == "servicenow" && action.action == "create_record" then
        match descChain parameters rd with
        | Except.error e => Except.error e
        | Except.ok e1 =>
          if Obj.hasKey rd "threat_score" then
            match Obj.getD rd "threat_score" (JVal.num 0) with
            | JVal.num ts => Except.ok (Obj.set e1 "priority" (JVal.str (priorityTier ts)))
            | _ => Except.error "TypeError: not supported between instances"
          else Except.ok e1
      else if action.server == "servicenow" && action.action == "update_record" then
        if Obj.hasKey rd "status" then
          let e1 := Obj.set parameters "additional_comments"
            (JVal.str ("Endpoint Status: " ++ JVal.pyStr (Obj.getD rd "status" (JVal.num 0))))
          if (match Obj.get? rd "status" with
              | some (JVal.str s) => s == "compromised"
              | _ => false) then
            Except.ok (Obj.set (Obj.set e1 "state" (JVal.str "In Progress"))
              "priority" (JVal.str "1 - Critical"))
          else Except.ok e1
        else Except.ok parameters
      else Except.ok parameters

/-- An observable internal call of the orchestration loop: a consultation of
the Condition Evaluator, or an invocation of the Capability Invoker
(`mcp_client.call_server`) with the effective parameters. -/
inductive TraceEv where
  | condEval (condition : String) (dep : StepOutcome)
  | capCall (server : String) (operation : String) (params : Obj)

/-- The `try` block of one executed action (lines 389-426): enrich the
parameters, call the server, and build the success or failure result dict;
a successful outcome is stored in the ledger (`action_results[step] = ...`),
a raised error is caught and not stored. Returns the outcome, the trace of
capability invocations (empty when enrichment raised before the call), and
the updated ledger. -/
def invokeStepTraced (call : String → String → Obj → Except String Obj)
    (a : Action) (step : Int) (depRes : Option StepOutcome) (ledger : Ledger) :
    StepOutcome × List TraceEv × Ledger :=
  match enhance_parameters_with_dependencies a.parameters depRes a with
  | Except.error e =>
      ({ step := step, action := a, success := false, error := some e,
         ai_reasoning := a.rationale, dependency_used := a.depends_on.isSome },
       [], ledger)
  | Except.ok params =>
    match call a.server a.action params with
    | Except.ok r =>
        let oc : StepOutcome :=
          { step := step, action := a, success := true, result := some r,
            ai_reasoning := a.rationale, dependency_used := a.depends_on.isSome }
        (oc, [TraceEv.capCall a.server a.action params], Ledger.set ledger step oc)
    | Except.error e =>
        ({ step := step, action := a, success := false, error := some e,
           ai_reasoning := a.rationale, dependency_used := a.depends_on.isSome },
         [TraceEv.capCall a.server a.action params], ledger)

/-- The dependency-unmet result dict (lines 362-370). -/
def depSkip (a : Action) (dep : Int) (step : Int) : StepOutcome :=
  { step := step, action := a, success := false,
    error := some ("Dependency step " ++ toString dep ++ " not found or failed"),
    ai_reasoning := a.rationale, skipped := true }

/-- The condition-not-met result dict (lines 376-385). -/
def condSkip (a : Action) (step : Int) : StepOutcome :=
  { step := step, action := a, success := true,
    result := some [("message", JVal.str
      ("Condition \x27" ++ a.condition.getD "" ++ "\x27 not met, step skipped"))],
    ai_reasoning := a.rationale, skipped := true, condition_evaluated := a.condition }

/-- The `for action in analysis["determined_actions"]` loop of
`execute_actions` (lines 348-428), threading the ledger and the running
count of results (`step = action.get("step", len(results) + 1)`). Returns
the ordered outcome list, the trace of internal calls, and the final
ledger. -/
def executeActionsGo (call : String → String → Obj → Except String Obj) :
    List Action → Ledger → Nat → List StepOutcome × List TraceEv × Ledger
  | [], ledger, _ => ([], [], ledger)
  | a :: rest, ledger, nres =>
    let step := a.step.getD ((nres : Int) + 1)
    match a.depends_on with
    | none =>
      let r := invokeStepTraced call a step none ledger
      let t := executeActionsGo call rest r.2.2 (nres + 1)
      (r.1 :: t.1, r.2.1 ++ t.2.1, t.2.2)
    | some dep =>
      match Ledger.get? ledger dep with
      | none =>
        let t := executeActionsGo call rest ledger (nres + 1)
        (depSkip a dep step :: t.1, t.2.1, t.2.2)
      | some depRes =>
        if condTruthy a.condition then
          if evaluate_condition (a.condition.getD "") depRes then
            let r := invokeStepTraced call a step (some depRes) ledger
            let t := executeActionsGo call rest r.2.2 (nres + 1)
            (r.1 :: t.1,
             TraceEv.condEval (a.condition.getD "") depRes :: (r.2.1 ++ t.2.1),
             t.2.2)
          else
            let t := executeActionsGo call rest ledger (nres + 1)
            (condSkip a step :: t.1,
             TraceEv.condEval (a.condition.getD "") depRes :: t.2.1,
             t.2.2)
        else
          let r := invokeStepTraced call a step (some depRes) ledger
          let t := executeActionsGo call rest r.2.2 (nres + 1)
          (r.1 :: t.1, r.2.1 ++ t.2.1, t.2.2)

/-- `EventProcessor.execute_actions` (lines 343-428): the returned `results`
list, one result dict per input action, starting from an empty
`action_results` ledger. The remote side of `mcp_client.call_server` is the
oracle `call`. -/
def execute_actions (call : String → String → Obj → Except String Obj)
    (actions : List Action) : List StepOutcome :=
  (executeActionsGo call actions [] 0).1

/-! ### Helper lemmas about the embedded operations -/

theorem Obj.get?_set (o : Obj) (k k2 : String) (v : JVal) :
    Obj.get? (Obj.set o k v) k2 = if k = k2 then some v else Obj.get? o k2 := by
  induction o with
  | nil => by_cases h : k = k2 <;> simp [Obj.set, Obj.get?, h]
  | cons hd tl ih =>
    obtain ⟨k0, v0⟩ := hd
    by_cases h1 : k0 = k
    · subst h1
      by_cases h2 : k0 = k2 <;> simp [Obj.set, Obj.get?, h2]
    · by_cases h2 : k0 = k2
      · subst h2
        have : ¬ k = k0 := fun h => h1 h.symm
        simp [Obj.set, Obj.get?, h1, this]
      · simp [Obj.set, Obj.get?, h1, h2, ih]

theorem Obj.hasKey_set (o : Obj) (k k2 : String) (v : JVal) :
    Obj.hasKey (Obj.set o k v) k2 = (decide (k = k2) || Obj.hasKey o k2) := by
  by_cases h : k = k2 <;> simp [Obj.hasKey, Obj.get?_set, h]

theorem Obj.hasKey_set_of_hasKey (o : Obj) (k k2 : String) (v : JVal)
    (h : Obj.hasKey o k2 = true) : Obj.hasKey (Obj.set o k v) k2 = true := by
  simp [Obj.hasKey_set, h]

theorem descAppend_eq (o : Obj) (txt s : String)
    (h : Obj.get? o "description" = some (JVal.str s)) :
    descAppend o txt = Except.ok (Obj.set o "description" (JVal.str (s ++ txt))) := by
  simp [descAppend, h]

theorem descAppend_ok_hasKey (o o2 : Obj) (txt : String)
    (h : descAppend o txt = Except.ok o2) (k : String)
    (hk : Obj.hasKey o k = true) : Obj.hasKey o2 k = true := by
  unfold descAppend at h
  cases hg : Obj.get? o "description" with
  | none => rw [hg] at h; exact absurd h (by simp)
  | some v =>
    cases v with
    | str s =>
        rw [hg] at h
        simp only [Except.ok.injEq] at h
        subst h
        exact Obj.hasKey_set_of_hasKey _ _ _ _ hk
    | num q => rw [hg] at h; exact absurd h (by simp)
    | obj fs => rw [hg] at h; exact absurd h (by simp)

theorem descChain_ok_hasKey (p rd o : Obj)
    (h : descChain p rd = Except.ok o) (k : String)
    (hk : Obj.hasKey p k = true) : Obj.hasKey o k = true := by
  unfold descChain at h
  split at h
  · split at h
    · exact absurd h (by simp)
    · rename_i a1 ha1
      have hk1 : Obj.hasKey a1 k = true := by
        split at ha1
        · exact descAppend_ok_hasKey _ _ _ ha1 _ hk
        · simp only [Except.ok.injEq] at ha1; subst ha1; exact hk
      split at h
      · exact absurd h (by simp)
      · rename_i a2 ha2
        have hk2 : Obj.hasKey a2 k = true := by
          split at ha2
          · exact descAppend_ok_hasKey _ _ _ ha2 _ hk1
          · simp only [Except.ok.injEq] at ha2; subst ha2; exact hk1
        split at h
        · exact descAppend_ok_hasKey _ _ _ h _ hk2
        · simp only [Except.ok.injEq] at h; subst h; exact hk2
  · simp only [Except.ok.injEq] at h; subst h; exact hk

theorem enhance_ok_hasKey (p : Obj) (d : Option StepOutcome) (a : Action) (o : Obj)
    (h : enhance_parameters_with_dependencies p d a = Except.ok o) (k : String)
    (hk : Obj.hasKey p k = true) : Obj.hasKey o k = true := by
  unfold enhance_parameters_with_dependencies at h
  cases d with
  | none => simp only [Except.ok.injEq] at h; subst h; exact hk
  | some dep =>
    simp only at h
    split at h
    · simp only [Except.ok.injEq] at h; subst h; exact hk
    · split at h
      · split at h
        · exact absurd h (by simp)
        · rename_i e1 he1
          have hk1 : Obj.hasKey e1 k = true := descChain_ok_hasKey _ _ _ he1 _ hk
          split at h
          · split at h
            · simp only [Except.ok.injEq] at h
              subst h
              exact Obj.hasKey_set_of_hasKey _ _ _ _ hk1
            · exact absurd h (by simp)
          · simp only [Except.ok.injEq] at h; subst h; exact hk1
      · split at h
        · split at h
          · split at h
            · simp only [Except.ok.injEq] at h
              subst h
              exact Obj.hasKey_set_of_hasKey _ _ _ _
                (Obj.hasKey_set_of_hasKey _ _ _ _
                  (Obj.hasKey_set_of_hasKey _ _ _ _ hk))
            · simp only [Except.ok.injEq] at h
              subst h
              exact Obj.hasKey_set_of_hasKey _ _ _ _ hk
          · simp only [Except.ok.injEq] at h; subst h; exact hk
        · simp only [Except.ok.injEq] at h; subst h; exact hk

theorem Ledger.mem_set (L : Ledger) (k : Int) (v : StepOutcome) (p : Int × StepOutcome)
    (h : p ∈ Ledger.set L k v) : p.2 = v ∨ p ∈ L := by
  induction L with
  | nil => simp [Ledger.set] at h; subst h; left; rfl
  | cons hd tl ih =>
    obtain ⟨k0, v0⟩ := hd
    by_cases h1 : k0 = k
    · simp [Ledger.set, h1] at h
      rcases h with h | h
      · subst h; left; rfl
      · right; exact List.mem_cons_of_mem _ h
    · simp only [Ledger.set, if_neg h1, List.mem_cons] at h
      rcases h with h | h
      · right; subst h; exact List.mem_cons_self _ _
      · rcases ih h with h2 | h2
        · left; exact h2
        · right; exact List.mem_cons_of_mem _ h2

theorem invokeStepTraced_none_enhance (a : Action) :
    enhance_parameters_with_dependencies a.parameters none a = Except.ok a.parameters := rfl

theorem invokeStepTraced_spec (call : String → String → Obj → Except String Obj)
    (a : Action) (step : Int) (depRes : Option StepOutcome) (ledger : Ledger) :
    (invokeStepTraced call a step depRes ledger).1.action = a
    ∧ (invokeStepTraced call a step depRes ledger).1.step = step
    ∧ (invokeStepTraced call a step depRes ledger).1.result.isSome
        = (invokeStepTraced call a step depRes ledger).1.success
    ∧ (invokeStepTraced call a step depRes ledger).1.error.isSome
        = !(invokeStepTraced call a step depRes ledger).1.success
    ∧ ((invokeStepTraced call a step depRes ledger).2.2 = ledger
       ∨ ((invokeStepTraced call a step depRes ledger).1.success = true
          ∧ (invokeStepTraced call a step depRes ledger).2.2
              = Ledger.set ledger step (invokeStepTraced call a step depRes ledger).1)) := by
  unfold invokeStepTraced
  split
  · simp
  · split <;> simp

theorem invokeStepTraced_trace_of_none (call : String → String → Obj → Except String Obj)
    (a : Action) (step : Int) (ledger : Ledger) :
    (invokeStepTraced call a step none ledger).2.1
      = [TraceEv.capCall a.server a.action a.parameters] := by
  unfold invokeStepTraced
  split
  · rename_i e heq
    rw [invokeStepTraced_none_enhance] at heq
    exact absurd heq (by simp)
  · rename_i params heq
    rw [invokeStepTraced_none_enhance] at heq
    simp only [Except.ok.injEq] at heq
    subst heq
    split <;> simp

theorem invokeStepTraced_none_error (call : String → String → Obj → Except String Obj)
    (a : Action) (step : Int) (ledger : Ledger) (e : String)
    (hcall : call a.server a.action a.parameters = Except.error e) :
    invokeStepTraced call a step none ledger
      = ({ step := step, action := a, success := false, error := some e,
           ai_reasoning := a.rationale, dependency_used := a.depends_on.isSome },
         [TraceEv.capCall a.server a.action a.parameters], ledger) := by
  unfold invokeStepTraced
  split
  · rename_i e2 heq
    rw [invokeStepTraced_none_enhance] at heq
    exact absurd heq (by simp)
  · rename_i params heq
    rw [invokeStepTraced_none_enhance] at heq
    simp only [Except.ok.injEq] at heq
    subst heq
    split
    · rename_i r heq2
      rw [hcall] at heq2
      exact absurd heq2 (by simp)
    · rename_i e2 heq2
      rw [hcall] at heq2
      simp only [Except.error.injEq] at heq2
      subst heq2
      rfl

theorem executeActionsGo_cons (call : String → String → Obj → Except String Obj)
    (a : Action) (rest : List Action) (ledger : Ledger) (n : Nat) :
    ∃ oc L2,
      (executeActionsGo call (a :: rest) ledger n).1
        = oc :: (executeActionsGo call rest L2 (n + 1)).1
      ∧ (executeActionsGo call (a :: rest) ledger n).2.2
        = (executeActionsGo call rest L2 (n + 1)).2.2
      ∧ oc.action = a
      ∧ oc.result.isSome = oc.success
      ∧ oc.error.isSome = !oc.success
      ∧ (L2 = ledger
         ∨ (oc.success = true ∧ L2 = Ledger.set ledger (a.step.getD ((n : Int) + 1)) oc)) := by
  obtain ⟨hact, hstep, hres, herr, hled⟩ :=
    invokeStepTraced_spec call a (a.step.getD ((n : Int) + 1)) none ledger
  cases hdep : a.depends_on with
  | none =>
    refine ⟨(invokeStepTraced call a (a.step.getD ((n : Int) + 1)) none ledger).1,
            (invokeStepTraced call a (a.step.getD ((n : Int) + 1)) none ledger).2.2,
            ?_, ?_, hact, hres, herr, ?_⟩
    · simp [executeActionsGo, hdep]
    · simp [executeActionsGo, hdep]
    · rcases hled with h | ⟨h1, h2⟩
      · left; exact h
      · right; exact ⟨h1, h2⟩
  | some dep =>
    cases hget : Ledger.get? ledger dep with
    | none =>
      refine ⟨depSkip a dep (a.step.getD ((n : Int) + 1)), ledger, ?_, ?_, ?_, ?_, ?_, Or.inl rfl⟩
      · simp [executeActionsGo, hdep, hget]
      · simp [executeActionsGo, hdep, hget]
      · rfl
      · rfl
      · rfl
    | some depRes =>
      by_cases hcond : condTruthy a.condition = true
      · by_cases heval : evaluate_condition (a.condition.getD "") depRes = true
        · obtain ⟨hact2, hstep2, hres2, herr2, hled2⟩ :=
            invokeStepTraced_spec call a (a.step.getD ((n : Int) + 1)) (some depRes) ledger
          refine ⟨(invokeStepTraced call a (a.step.getD ((n : Int) + 1)) (some depRes) ledger).1,
                  (invokeStepTraced call a (a.step.getD ((n : Int) + 1)) (some depRes) ledger).2.2,
                  ?_, ?_, hact2, hres2, herr2, ?_⟩
          · simp [executeActionsGo, hdep, hget, hcond, heval]
          · simp [executeActionsGo, hdep, hget, hcond, heval]
          · rcases hled2 with h | ⟨h1, h2⟩
            · left; exact h
            · right; exact ⟨h1, h2⟩
        · refine ⟨condSkip a (a.step.getD ((n : Int) + 1)), ledger, ?_, ?_, ?_, ?_, ?_, Or.inl rfl⟩
          · simp [executeActionsGo, hdep, hget, hcond, heval]
          · simp [executeActionsGo, hdep, hget, hcond, heval]
          · rfl
          · rfl
          · rfl
      · obtain ⟨hact2, hstep2, hres2, herr2, hled2⟩ :=
          invokeStepTraced_spec call a (a.step.getD ((n : Int) + 1)) (some depRes) ledger
        refine ⟨(invokeStepTraced call a (a.step.getD ((n : Int) + 1)) (some depRes) ledger).1,
                (invokeStepTraced call a (a.step.getD ((n : Int) + 1)) (some depRes) ledger).2.2,
                ?_, ?_, hact2, hres2, herr2, ?_⟩
        · simp [executeActionsGo, hdep, hget, hcond]
        · simp [executeActionsGo, hdep, hget, hcond]
        · rcases hled2 with h | ⟨h1, h2⟩
          · left; exact h
          · right; exact ⟨h1, h2⟩

theorem executeActionsGo_map_action (call : String → String → Obj → Except String Obj) :
    ∀ (actions : List Action) (ledger : Ledger) (n : Nat),
      ((executeActionsGo call actions ledger n).1).map StepOutcome.action = actions := by
  intro actions
  induction actions with
  | nil => intro ledger n; rfl
  | cons a rest ih =>
    intro ledger n
    obtain ⟨oc, L2, h1, _, hact, _, _, _⟩ := executeActionsGo_cons call a rest ledger n
    rw [h1, List.map_cons, hact, ih L2 (n + 1)]

theorem executeActionsGo_outcome_invariant (call : String → String → Obj → Except String Obj) :
    ∀ (actions : List Action) (ledger : Ledger) (n : Nat) (oc : StepOutcome),
      oc ∈ (executeActionsGo call actions ledger n).1 →
      oc.result.isSome = oc.success ∧ oc.error.isSome = !oc.success := by
  intro actions
  induction actions with
  | nil => intro ledger n oc h; exact absurd h (by simp [executeActionsGo])
  | cons a rest ih =>
    intro ledger n oc h
    obtain ⟨oc0, L2, h1, _, _, hres, herr, _⟩ := executeActionsGo_cons call a rest ledger n
    rw [h1] at h
    rcases List.mem_cons.mp h with h2 | h2
    · subst h2; exact ⟨hres, herr⟩
    · exact ih L2 (n + 1) oc h2

theorem executeActionsGo_ledger_invariant (call : String → String → Obj → Except String Obj) :
    ∀ (actions : List Action) (ledger : Ledger) (n : Nat),
      (∀ p ∈ ledger, (p : Int × StepOutcome).2.success = true) →
      ∀ p ∈ (executeActionsGo call actions ledger n).2.2,
        (p : Int × StepOutcome).2.success = true := by
  intro actions
  induction actions with
  | nil => intro ledger n hinv p hp; exact hinv p hp
  | cons a rest ih =>
    intro ledger n hinv p hp
    obtain ⟨oc, L2, _, h2, _, _, _, hled⟩ := executeActionsGo_cons call a rest ledger n
    rw [h2] at hp
    rcases hled with h | ⟨hsucc, h⟩
    · subst h; exact ih _ (n + 1) hinv p hp
    · subst h
      refine ih _ (n + 1) ?_ p hp
      intro q hq
      rcases Ledger.mem_set _ _ _ _ hq with h3 | h3
      · rw [h3]; exact hsucc
      · exact hinv q h3

/-! ### Concrete fixtures used by witnesses and counterexamples -/

/-- An oracle whose every call succeeds with a high threat score. -/
def okCall : String → String → Obj → Except String Obj :=
  fun _ _ _ => Except.ok [("threat_score", JVal.num 85)]

/-- An oracle whose every call succeeds with a low threat score. -/
def lowCall : String → String → Obj → Except String Obj :=
  fun _ _ _ => Except.ok [("threat_score", JVal.num 40)]

/-- An oracle for which the `cyberreason` server raises a transport error
(the message shape of `MCPClient.call_server`, mcp_client.py line 48) and
every other server succeeds. -/
def failCall : String → String → Obj → Except String Obj :=
  fun server _ _ =>
    if server == "cyberreason" then
      Except.error "Failed to connect to cyberreason: boom"
    else Except.ok [("threat_score", JVal.num 85)]

/-- An independent VirusTotal scan action. -/
def vtAction : Action :=
  { step := some 1, server := "virustotal", action := "scan_ip",
    parameters := [("ip", JVal.str "1.2.3.4")],
    depends_on := none, condition := none, rationale := "scan" }

/-- A VirusTotal scan action with a condition but no dependency. -/
def vtCondAction : Action :=
  { vtAction with condition := some "threat_score > 70" }

/-- A ServiceNow ticket-creation action depending on step 1 under a
threat-score condition. -/
def snowAction : Action :=
  { step := some 2, server := "servicenow", action := "create_record",
    parameters := [("description", JVal.str "Security incident")],
    depends_on := some 1, condition := some "threat_score > 70", rationale := "ticket" }

/-- An independent CyberReason action (used with `failCall`). -/
def crAction : Action :=
  { step := some 1, server := "cyberreason", action := "query",
    parameters := [], depends_on := none, condition := none, rationale := "" }

/-- Two actions sharing the same `step` value. -/
def dupA : Action :=
  { step := some 1, server := "virustotal", action := "scan_ip",
    parameters := [], depends_on := none, condition := none, rationale := "" }

/-- Second action with the duplicate `step` value. -/
def dupB : Action :=
  { step := some 1, server := "cyberreason", action := "query",
    parameters := [], depends_on := none, condition := none, rationale := "" }

/-- A succeeded dependency outcome carrying a high threat score. -/
def okDep : StepOutcome :=
  { step := 1, action := vtAction, success := true,
    result := some [("threat_score", JVal.num 85)] }

/-- A failed dependency outcome. -/
def failedDep : StepOutcome :=
  { step := 1, action := vtAction, success := false, error := some "boom" }

/-! ### The claims -/

/-- C1: for an action `a` with `depends_on` set, when the ledger has no
(succeeded) outcome recorded under that step — it has not run, does not
exist, failed, or was skipped, since only succeeded outcomes are ever
stored — the orchestrator records the dependency-unmet skip outcome
(`skipped = true` with the "Dependency step ... not found or failed"
message) and emits no internal call for `a`: the trace is exactly the trace
of the remaining actions, so neither `evaluate_condition` nor
`mcp_client.call_server` is invoked for `a`. -/
theorem claim_C1_dependency_unmet (call : String → String → Obj → Except String Obj)
    (a : Action) (rest : List Action) (ledger : Ledger) (n : Nat) (dep : Int)
    (hdep : a.depends_on = some dep)
    (hmiss : Ledger.get? ledger dep = none) :
    (executeActionsGo call (a :: rest) ledger n).1
      = depSkip a dep (a.step.getD ((n : Int) + 1))
          :: (executeActionsGo call rest ledger (n + 1)).1
    ∧ (depSkip a dep (a.step.getD ((n : Int) + 1))).skipped = true
    ∧ (depSkip a dep (a.step.getD ((n : Int) + 1))).error
        = some ("Dependency step " ++ toString dep ++ " not found or failed")
    ∧ (executeActionsGo call (a :: rest) ledger n).2.1
        = (executeActionsGo call rest ledger (n + 1)).2.1 := by
  refine ⟨?_, rfl, rfl, ?_⟩ <;> simp [executeActionsGo, hdep, hmiss]

/-- Witness for C1: a ServiceNow action depending on step 1 against an
empty ledger is recorded as the dependency-unmet skip and produces no
trace events. -/
theorem claim_C1_dependency_unmet_witness :
    (executeActionsGo okCall [snowAction] [] 0).1 = [depSkip snowAction 1 2]
    ∧ (executeActionsGo okCall [snowAction] [] 0).2.1 = [] := by
  have h := claim_C1_dependency_unmet okCall snowAction [] [] 0 1 rfl rfl
  exact ⟨h.1, h.2.2.2⟩

/-- C2: `execute_actions` returns exactly one outcome per input action, in
input order: mapping each outcome back to its `action` field reproduces the
input list, whichever branch each action takes. -/
theorem claim_C2_order_preservation (call : String → String → Obj → Except String Obj)
    (actions : List Action) :
    (execute_actions call actions).length = actions.length
    ∧ (execute_actions call actions).map StepOutcome.action = actions := by
  have h := executeActionsGo_map_action call actions [] 0
  refine ⟨?_, h⟩
  simpa using congrArg List.length h

/-- C3: when the capability invocation for a (dependency-free) action
raises, the loop records a `failed` outcome carrying the exception message,
leaves the ledger exactly as the processing of the remaining actions alone
would, and continues with the remaining actions against the unchanged
ledger; and every entry ever stored in the ledger is a succeeded outcome
(from an all-succeeded ledger, the final ledger is all-succeeded, for any
action list). -/
theorem claim_C3_failure_containment (call : String → String → Obj → Except String Obj)
    (a : Action) (rest : List Action) (ledger : Ledger) (n : Nat) (e : String)
    (hdep : a.depends_on = none)
    (hcall : call a.server a.action a.parameters = Except.error e) :
    (executeActionsGo call (a :: rest) ledger n).1
      = { step := a.step.getD ((n : Int) + 1), action := a, success := false,
          error := some e, ai_reasoning := a.rationale, dependency_used := false }
          :: (executeActionsGo call rest ledger (n + 1)).1
    ∧ (executeActionsGo call (a :: rest) ledger n).2.2
        = (executeActionsGo call rest ledger (n + 1)).2.2
    ∧ (∀ (acts : List Action) (L : Ledger) (m : Nat),
        (∀ p ∈ L, (p : Int × StepOutcome).2.success = true) →
        ∀ p ∈ (executeActionsGo call acts L m).2.2,
          (p : Int × StepOutcome).2.success = true) := by
  have hinv := invokeStepTraced_none_error call a (a.step.getD ((n : Int) + 1)) ledger e hcall
  refine ⟨?_, ?_, executeActionsGo_ledger_invariant call⟩ <;>
    simp [executeActionsGo, hdep, hinv]

/-- Witness for C3: with `failCall`, the failing CyberReason step is
recorded as `failed` with the transport message, and the run continues to
the independent VirusTotal step starting from the untouched empty ledger;
the final ledger is all-succeeded. -/
theorem claim_C3_failure_containment_witness :
    (executeActionsGo failCall [crAction, vtAction] [] 0).1
      = { step := 1, action := crAction, success := false,
          error := some "Failed to connect to cyberreason: boom",
          ai_reasoning := "", dependency_used := false }
          :: (executeActionsGo failCall [vtAction] [] 1).1
    ∧ (∀ p ∈ (executeActionsGo failCall [crAction, vtAction] [] 0).2.2,
        (p : Int × StepOutcome).2.success = true) := by
  have h := claim_C3_failure_containment failCall crAction [vtAction] [] 0
    "Failed to connect to cyberreason: boom" rfl rfl
  exact ⟨h.1, h.2.2 [crAction, vtAction] [] 0 (by intro p hp; simp at hp)⟩

/-- C4: a condition string matching none of the recognized shapes (no
`threat_score`, no `severity`, no `compromised`, no `malicious` — the exact
substring tests of the source) evaluates to `true` against a succeeded
dependency result: the fail-open default. -/
theorem claim_C4_fail_open (cond : String) (dep : StepOutcome)
    (hsucc : dep.success = true)
    (h1 : strContains cond "threat_score" = false)
    (h2 : strContains cond "severity" = false)
    (h3 : strContains (strToLower cond) "compromised" = false)
    (h4 : strContains (strToLower cond) "malicious" = false) :
    evaluate_condition cond dep = true := by
  unfold evaluate_condition evalConditionInner evalConditionBody
  rw [hsucc]
  simp [h1, h2, h3, h4]

/-- Witness for C4: the unknown condition `"foo bar"` evaluates to `true`
against a succeeded dependency. -/
theorem claim_C4_fail_open_witness :
    evaluate_condition "foo bar" okDep = true :=
  claim_C4_fail_open "foo bar" okDep rfl rfl rfl rfl rfl

/-- C7: `evaluate_condition` is a total boolean function (it cannot
propagate an exception): when the dependency result's success flag is not
set it returns `false` immediately, and whenever the inner evaluation
raises (`evalConditionInner` returns an error, e.g. a non-numeric threshold
after a comparison operator) the `try/except` wrapper yields `false`. -/
theorem claim_C7_defensive_totality (cond : String) (dep : StepOutcome) :
    (dep.success = false → evaluate_condition cond dep = false)
    ∧ (∀ e, evalConditionInner cond dep = Except.error e →
        evaluate_condition cond dep = false) := by
  constructor
  · intro h
    simp [evaluate_condition, evalConditionInner, h]
  · intro e h
    simp [evaluate_condition, h]

/-- Witness for C7: a failed dependency yields `false`, and the unparsable
threshold in `"threat_score > trustme"` yields `false` instead of an
error. -/
theorem claim_C7_defensive_totality_witness :
    evaluate_condition "threat_score > 70" failedDep = false
    ∧ evaluate_condition "threat_score > trustme" okDep = false := by
  constructor
  · exact (claim_C7_defensive_totality "threat_score > 70" failedDep).1 rfl
  · exact (claim_C7_defensive_totality "threat_score > trustme" okDep).2
      "ValueError: could not convert string to float" rfl

/-- C10: an action with no `depends_on` is always invoked, even when its
`condition` is a non-empty string: the head outcome is the invocation
result, the trace for the action is exactly one capability call (with the
un-enriched parameters) and contains no condition-evaluator consultation,
which happens only under a declared dependency. -/
theorem claim_C10_condition_ignored_without_dependency
    (call : String → String → Obj → Except String Obj)
    (a : Action) (rest : List Action) (ledger : Ledger) (n : Nat) (c : String)
    (hdep : a.depends_on = none) (hc : a.condition = some c) (hne : c ≠ "") :
    (executeActionsGo call (a :: rest) ledger n).1
      = (invokeStepTraced call a (a.step.getD ((n : Int) + 1)) none ledger).1
          :: (executeActionsGo call rest
              (invokeStepTraced call a (a.step.getD ((n : Int) + 1)) none ledger).2.2
              (n + 1)).1
    ∧ (executeActionsGo call (a :: rest) ledger n).2.1
      = TraceEv.capCall a.server a.action a.parameters
          :: (executeActionsGo call rest
              (invokeStepTraced call a (a.step.getD ((n : Int) + 1)) none ledger).2.2
              (n + 1)).2.1 := by
  constructor
  · simp [executeActionsGo, hdep]
  · simp [executeActionsGo, hdep, invokeStepTraced_trace_of_none]

/-- Witness for C10: a dependency-free VirusTotal action with the non-empty
condition `"threat_score > 70"` is invoked (one capability call, no
condition evaluation). -/
theorem claim_C10_condition_ignored_without_dependency_witness :
    (executeActionsGo okCall [vtCondAction] [] 0).1
      = [(invokeStepTraced okCall vtCondAction 1 none []).1]
    ∧ (executeActionsGo okCall [vtCondAction] [] 0).2.1
      = [TraceEv.capCall "virustotal" "scan_ip" [("ip", JVal.str "1.2.3.4")]] := by
  have h := claim_C10_condition_ignored_without_dependency okCall vtCondAction [] [] 0
    "threat_score > 70" rfl rfl (by decide)
  exact ⟨h.1, h.2⟩

/-- Collapsing two successive writes to the same key. -/
theorem Obj.set_set (o : Obj) (k : String) (v v2 : JVal) :
    Obj.set (Obj.set o k v) k v2 = Obj.set o k v2 := by
  induction o with
  | nil => simp [Obj.set]
  | cons hd tl ih =>
    obtain ⟨k0, v0⟩ := hd
    by_cases h : k0 = k
    · simp [Obj.set, h]
    · simp [Obj.set, h, ih]

theorem descChain_spec (p rd : Obj) (desc : String)
    (hdesc : Obj.get? p "description" = some (JVal.str desc))
    (hts : Obj.hasKey rd "threat_score" = true) :
    descChain p rd = Except.ok (Obj.set p "description" (JVal.str (desc ++ tsLine rd
        ++ (if Obj.hasKey rd "malicious" && Obj.hasKey rd "total" then vtLine rd else "")
        ++ (if Obj.hasKey rd "reputation" then repLine rd else "")))) := by
  have hpd : Obj.hasKey p "description" = true := by simp [Obj.hasKey, hdesc]
  have h1 : descAppend p (tsLine rd)
      = Except.ok (Obj.set p "description" (JVal.str (desc ++ tsLine rd))) :=
    descAppend_eq p (tsLine rd) desc hdesc
  have hget1 : Obj.get? (Obj.set p "description" (JVal.str (desc ++ tsLine rd))) "description"
      = some (JVal.str (desc ++ tsLine rd)) := by
    simp [Obj.get?_set]
  by_cases hmt : (Obj.hasKey rd "malicious" && Obj.hasKey rd "total") = true
  · have h2 : descAppend (Obj.set p "description" (JVal.str (desc ++ tsLine rd))) (vtLine rd)
        = Except.ok (Obj.set p "description" (JVal.str (desc ++ tsLine rd ++ vtLine rd))) := by
      rw [descAppend_eq _ (vtLine rd) (desc ++ tsLine rd) hget1, Obj.set_set]
    have hget2 : Obj.get? (Obj.set p "description" (JVal.str (desc ++ tsLine rd ++ vtLine rd)))
        "description" = some (JVal.str (desc ++ tsLine rd ++ vtLine rd)) := by
      simp [Obj.get?_set]
    by_cases hrep : Obj.hasKey rd "reputation" = true
    · have h3 : descAppend
          (Obj.set p "description" (JVal.str (desc ++ tsLine rd ++ vtLine rd))) (repLine rd)
          = Except.ok (Obj.set p "description"
              (JVal.str (desc ++ tsLine rd ++ vtLine rd ++ repLine rd))) := by
        rw [descAppend_eq _ (repLine rd) (desc ++ tsLine rd ++ vtLine rd) hget2, Obj.set_set]
      simp [descChain, hpd, hts, hmt, hrep, h1, h2, h3]
    · simp [descChain, hpd, hts, hmt, hrep, h1, h2, String.append_empty]
  · by_cases hrep : Obj.hasKey rd "reputation" = true
    · have h3 : descAppend (Obj.set p "description" (JVal.str (desc ++ tsLine rd))) (repLine rd)
          = Except.ok (Obj.set p "description"
              (JVal.str (desc ++ tsLine rd ++ repLine rd))) := by
        rw [descAppend_eq _ (repLine rd) (desc ++ tsLine rd) hget1, Obj.set_set]
      simp [descChain, hpd, hts, hmt, hrep, h1, h3, String.append_empty]
    · simp [descChain, hpd, hts, hmt, hrep, h1, String.append_empty]

/-- C5 counterexample: `execute_actions` does not raise a
`ConfigurationError` on duplicate `step` values, and capability invocation
does begin: with two actions both carrying `step = 1`, both are invoked,
both outcomes are returned, and the later succeeded outcome silently
overwrites the earlier ledger entry for step 1. This refutes the claim that
a structurally invalid action list aborts the run before any invocation. -/
theorem claim_C5_counterexample :
    (execute_actions okCall [dupA, dupB]).map StepOutcome.success = [true, true]
    ∧ (executeActionsGo okCall [dupA, dupB] [] 0).2.1
      = [TraceEv.capCall "virustotal" "scan_ip" [], TraceEv.capCall "cyberreason" "query" []]
    ∧ (Ledger.get? (executeActionsGo okCall [dupA, dupB] [] 0).2.2 1).map StepOutcome.action
      = some dupB :=
  ⟨rfl, rfl, rfl⟩

/-- C5 (amended): `execute_actions` performs no structural validation of
its input and never aborts: even when two actions carry the same `step`
value, every action is still processed in order (one outcome per action)
and both are invoked; a later succeeded outcome overwrites the earlier
ledger entry for the shared step. -/
theorem claim_C5_no_structural_validation
    (call : String → String → Obj → Except String Obj)
    (a1 a2 : Action) (rest : List Action) (s : Int)
    (h1 : a1.step = some s) (h2 : a2.step = some s)
    (hd1 : a1.depends_on = none) (hd2 : a2.depends_on = none) :
    (execute_actions call (a1 :: a2 :: rest)).map StepOutcome.action = a1 :: a2 :: rest
    ∧ ((executeActionsGo call (a1 :: a2 :: rest) [] 0).2.1).take 2
      = [TraceEv.capCall a1.server a1.action a1.parameters,
         TraceEv.capCall a2.server a2.action a2.parameters] := by
  refine ⟨executeActionsGo_map_action call _ [] 0, ?_⟩
  simp [executeActionsGo, hd1, hd2, invokeStepTraced_trace_of_none]

/-- Witness for the amended C5: the duplicate-step pair is fully processed
and both capabilities are invoked. -/
theorem claim_C5_no_structural_validation_witness :
    (execute_actions okCall [dupA, dupB]).map StepOutcome.action = [dupA, dupB]
    ∧ ((executeActionsGo okCall [dupA, dupB] [] 0).2.1).take 2
      = [TraceEv.capCall "virustotal" "scan_ip" [], TraceEv.capCall "cyberreason" "query" []] := by
  have h := claim_C5_no_structural_validation okCall dupA dupB [] 1 rfl rfl rfl rfl
  exact ⟨h.1, h.2⟩

/-- C6 counterexample: skipped outcomes do carry a payload or an error
message, contrary to the claim. The dependency-unmet skip for a lone
dependent action has `skipped = true` with `success = false` and an error
message present; the condition-not-met skip has `skipped = true` with
`success = true` and a result payload present. -/
theorem claim_C6_counterexample :
    ¬ (∀ oc ∈ execute_actions okCall [snowAction],
        oc.skipped = true → oc.result = none ∧ oc.error = none)
    ∧ ((execute_actions okCall [snowAction]).map
        (fun oc => (oc.skipped, oc.success, oc.error.isSome, oc.result.isSome)))
      = [(true, false, true, false)]
    ∧ ((execute_actions lowCall [vtAction, snowAction]).map
        (fun oc => (oc.skipped, oc.success, oc.result.isSome)))
      = [(false, true, true), (true, true, true)] := by
  refine ⟨?_, rfl, rfl⟩
  intro h
  have h2 := h (depSkip snowAction 1 2) (List.mem_cons_self _ _) rfl
  exact absurd h2.2 (by simp [depSkip])

/-- C6 (amended): every outcome produced by `execute_actions` carries a
result payload exactly when its success flag is set and an error message
exactly when it is not; statuses are encoded as the `success` flag plus a
separate `skipped` marker, and skipped outcomes still carry one of the two
(dependency-skips an error message with `success = false`, condition-skips
a result payload with `success = true`). -/
theorem claim_C6_outcome_fields (call : String → String → Obj → Except String Obj)
    (actions : List Action) (oc : StepOutcome)
    (h : oc ∈ execute_actions call actions) :
    oc.result.isSome = oc.success ∧ oc.error.isSome = !oc.success :=
  executeActionsGo_outcome_invariant call actions [] 0 oc h

/-- Witness for the amended C6: the dependency-unmet skip outcome of a lone
dependent action satisfies the field invariant. -/
theorem claim_C6_outcome_fields_witness :
    (depSkip snowAction 1 2).result.isSome = (depSkip snowAction 1 2).success
    ∧ (depSkip snowAction 1 2).error.isSome = !(depSkip snowAction 1 2).success :=
  claim_C6_outcome_fields okCall [snowAction] _ (List.mem_cons_self _ _)

/-- C8: parameter enrichment is deterministic (same inputs, same output),
non-destructive (every key of the base parameters is present in any
successfully enriched parameters), and the identity when the dependency
result is absent or not successful. -/
theorem claim_C8_enrichment (p : Obj) (d : Option StepOutcome) (a : Action) :
    enhance_parameters_with_dependencies p d a = enhance_parameters_with_dependencies p d a
    ∧ (∀ o k, enhance_parameters_with_dependencies p d a = Except.ok o →
        Obj.hasKey p k = true → Obj.hasKey o k = true)
    ∧ (d = none → enhance_parameters_with_dependencies p d a = Except.ok p)
    ∧ (∀ sd, d = some sd → sd.success = false →
        enhance_parameters_with_dependencies p d a = Except.ok p) := by
  refine ⟨rfl, ?_, ?_, ?_⟩
  · intro o k h hk
    exact enhance_ok_hasKey p d a o h k hk
  · intro h
    subst h
    rfl
  · intro sd h hf
    subst h
    simp [enhance_parameters_with_dependencies, hf]

/-- Witness for C8: the enriched ServiceNow parameters keep the caller's
`description` key, and enrichment is the identity for an absent and for a
failed dependency result. -/
theorem claim_C8_enrichment_witness :
    Obj.hasKey [("description", JVal.str "D\n\nThreat Intelligence:\nThreat Score: 85"),
                ("priority", JVal.str "1 - Critical")] "description" = true
    ∧ enhance_parameters_with_dependencies [("description", JVal.str "D")] none snowAction
        = Except.ok [("description", JVal.str "D")]
    ∧ enhance_parameters_with_dependencies [("description", JVal.str "D")]
        (some failedDep) snowAction = Except.ok [("description", JVal.str "D")] := by
  refine ⟨?_, ?_, ?_⟩
  · exact (claim_C8_enrichment [("description", JVal.str "D")] (some okDep) snowAction).2.1
      [("description", JVal.str "D\n\nThreat Intelligence:\nThreat Score: 85"),
       ("priority", JVal.str "1 - Critical")] "description" rfl rfl
  · exact (claim_C8_enrichment [("description", JVal.str "D")] none snowAction).2.2.1 rfl
  · exact (claim_C8_enrichment [("description", JVal.str "D")] (some failedDep) snowAction).2.2.2
      failedDep rfl rfl

/-- C9: enriching a `servicenow`/`create_record` action from a succeeded
dependency whose result carries a numeric `threat_score` sets the priority
by the fixed breakpoints (>80 critical, >60 high, >30 medium, else low)
and appends to the description, in order, the threat-score line and — when
present — the VirusTotal detection-ratio line and the reputation line. -/
theorem claim_C9_servicenow_enrichment (p : Obj) (sd : StepOutcome) (a : Action)
    (rd : Obj) (ts : ℚ) (desc : String)
    (hserver : a.server = "servicenow") (haction : a.action = "create_record")
    (hsucc : sd.success = true) (hres : sd.result = some rd)
    (hts : Obj.get? rd "threat_score" = some (JVal.num ts))
    (hdesc : Obj.get? p "description" = some (JVal.str desc)) :
    enhance_parameters_with_dependencies p (some sd) a
      = Except.ok (Obj.set (Obj.set p "description" (JVal.str (desc ++ tsLine rd
          ++ (if Obj.hasKey rd "malicious" && Obj.hasKey rd "total" then vtLine rd else "")
          ++ (if Obj.hasKey rd "reputation" then repLine rd else ""))))
          "priority" (JVal.str (priorityTier ts)))
    ∧ priorityTier ts
      = (if ts > 80 then "1 - Critical"
         else if ts > 60 then "2 - High"
         else if ts > 30 then "3 - Medium"
         else "4 - Low") := by
  have hkey : Obj.hasKey rd "threat_score" = true := by simp [Obj.hasKey, hts]
  have hchain := descChain_spec p rd desc hdesc hkey
  have hgetd : Obj.getD rd "threat_score" (JVal.num 0) = JVal.num ts := by
    simp [Obj.getD, hts]
  refine ⟨?_, rfl⟩
  simp [enhance_parameters_with_dependencies, hsucc, hres, hserver, haction,
    hchain, hkey, hgetd]

/-- Witness for C9: a threat score of 85 yields priority `"1 - Critical"`
and the appended threat-intelligence line. -/
theorem claim_C9_servicenow_enrichment_witness :
    enhance_parameters_with_dependencies
      [("description", JVal.str "Security incident")] (some okDep) snowAction
      = Except.ok
          [("description",
            JVal.str "Security incident\n\nThreat Intelligence:\nThreat Score: 85"),
           ("priority", JVal.str "1 - Critical")] := by
  have h := claim_C9_servicenow_enrichment
    [("description", JVal.str "Security incident")] okDep snowAction
    [("threat_score", JVal.num 85)] 85 "Security incident" rfl rfl rfl rfl rfl rfl
  exact h.1

end EventProcessor
